import Mathlib

/-!
Verification of the commit-message core of FreePeak/commitgen
(`pkg/commitrules/rules.go`): the rule registry, `GetPrompt`,
`CleanCommitMessage` and `ValidateCommitMessage`, shallowly embedded over
Lean strings.  Go strings are UTF-8; `len` on a Go string is its byte
length, embedded here as `String.utf8ByteSize`.  The five extraction
regular expressions of `CleanCommitMessage` are embedded as specialised
matching functions with Go (leftmost-first, greedy) semantics.
-/

/-- The set of characters removed by `unicode.IsSpace`, the predicate used
by Go's `strings.TrimSpace`. -/
def goIsSpace (c : Char) : Bool :=
  c == ' ' || c == '\t' || c == '\n' || c == '\x0B' || c == '\x0C' || c == '\r' ||
  c == '\u0085' || c == '\u00A0' || c == '\u1680' ||
  ('\u2000' ≤ c && c ≤ '\u200A') || c == '\u2028' || c == '\u2029' ||
  c == '\u202F' || c == '\u205F' || c == '\u3000'

/-- Drop the longest suffix whose characters satisfy `p`. -/
def dropTrailing (l : List Char) (p : Char → Bool) : List Char :=
  (l.reverse.dropWhile p).reverse

/-- Go `strings.Trim(s, cutset)`: remove leading and trailing characters
belonging to `cutset`. -/
def goTrimChars (s : String) (cutset : List Char) : String :=
  String.mk (dropTrailing (s.data.dropWhile (cutset.contains ·)) (cutset.contains ·))

/-- Go `strings.TrimSpace(s)`. -/
def goTrimSpace (s : String) : String :=
  String.mk (dropTrailing (s.data.dropWhile goIsSpace) goIsSpace)

/-- Does `pat` occur as a prefix of `l`? -/
def hasPre : List Char → List Char → Bool
  | [], _ => true
  | _ :: _, [] => false
  | p :: ps, c :: cs => p == c && hasPre ps cs

/-- Does `pat` occur as a contiguous substring of `l`? -/
def hasSub (pat : List Char) : List Char → Bool
  | [] => hasPre pat []
  | c :: cs => hasPre pat (c :: cs) || hasSub pat cs

/-- Go `strings.Contains(s, sub)`. -/
def goContains (s sub : String) : Bool :=
  hasSub sub.data s.data

/-- Go `strings.SplitN(s, sep, 2)` for a one-character separator: if `sep`
occurs, the part before its first occurrence and the rest; otherwise the
one-element list `[s]`.  The result is never empty. -/
def goSplitN2 (s : String) (sep : Char) : List String :=
  if hasSub [sep] s.data then
    [String.mk (s.data.takeWhile (· != sep)),
     String.mk ((s.data.dropWhile (· != sep)).drop 1)]
  else [s]

/-- Go `strings.Join(elems, sep)`. -/
def goJoin (l : List String) (sep : String) : String :=
  match l with
  | [] => ""
  | [s] => s
  | s :: rest => s ++ sep ++ goJoin rest sep

/-- `CommitRule` of `rules.go`: one conventional-commit category. -/
structure CommitRule where
  type : String
  description : String
  examples : List String
deriving DecidableEq

/-- The `CommitRules` map of `rules.go`, embedded as an association list in
the order of the Go map literal (the keys are what matter for lookup; Go
maps are unordered). -/
def CommitRules : List (String × CommitRule) :=
  [("feat",
    { type := "feat", description := "A new feature",
      examples := ["feat(core): add user authentication service",
                   "feat(ui): implement dark mode toggle"] }),
   ("fix",
    { type := "fix", description := "A bug fix",
      examples := ["fix(api): resolve null pointer in validation",
                   "fix(ui): correct button alignment"] }),
   ("docs",
    { type := "docs", description := "Documentation only changes",
      examples := ["docs(readme): update installation instructions",
                   "docs(api): add endpoint documentation"] }),
   ("style",
    { type := "style",
      description := "Changes that do not affect the meaning of the code (white-space, formatting, missing semi-colons, etc)",
      examples := ["style(utils): format code with prettier",
                   "style(ui): fix indentation"] }),
   ("refactor",
    { type := "refactor",
      description := "A code change that neither fixes a bug nor adds a feature",
      examples := ["refactor(utils): extract validation logic",
                   "refactor(api): simplify request handling"] }),
   ("test",
    { type := "test",
      description := "Adding missing tests or correcting existing tests",
      examples := ["test(core): add unit tests for user service",
                   "test(api): fix integration tests"] }),
   ("chore",
    { type := "chore",
      description := "Other changes that don't modify src or test files",
      examples := ["chore(deps): update dependencies",
                   "chore(build): update build configuration"] })]

/-- The key set of the `CommitRules` map, in map-literal order. -/
def commitTypeNames : List String :=
  CommitRules.map Prod.fst

/-- `GetCommitTypes` of `rules.go` iterates over the `CommitRules` map and
collects its keys.  Go map iteration order is unspecified and may differ
between calls, so the embedding takes the observed iteration order as an
explicit parameter; an order the Go runtime can produce is exactly a
permutation of `commitTypeNames`. -/
def GetCommitTypes (order : List String) : List String :=
  order

/-- The fixed prompt template of `GetPrompt` up to and including the
`- Types: ` marker (the text before the first `%s` of the Go format
string). -/
def promptBeforeTypes : String :=
  "You are a commit message generator. Your ONLY task is to output a single conventional commit message.\n\nFORMAT: type(scope): description\nRULES:\n- Maximum 50 characters total\n- Types: "

/-- The fixed prompt template between the comma-joined type list and the
appended analysis input (the text between the two `%s` of the Go format
string). -/
def promptAfterTypes : String :=
  "\n- Extract scope from file paths (api, ui, core, scripts, pkg, etc.)\n- Use lowercase, present tense, imperative mood\n- No periods, quotes, or extra text\n\nEXAMPLE OUTPUTS:\nfeat(core): add user authentication\nfix(api): resolve null pointer exception\ndocs(readme): update installation guide\nstyle(ui): format button components\nrefactor(db): simplify query logic\ntest(auth): add unit tests for login\nchore(deps): update go modules\n\nCRITICAL: Respond with ONLY the commit message. No explanations, no quotes, no \"Here is the commit message:\", no extra text whatsoever.\n\nGit diff to analyze:\n"

/-- `GetPrompt` of `rules.go`: the instructional template with the
comma-joined commit types and the analysis input substituted for the two
`%s` of the Go format string. -/
def GetPrompt (order : List String) (analysisInput : String) : String :=
  let commitTypesList := goJoin (GetCommitTypes order) ", "
  promptBeforeTypes ++ commitTypesList ++ promptAfterTypes ++ analysisInput

/-- The structured failure reasons of `ValidateCommitMessage` (the Go code
returns them as `fmt.Errorf` strings; `CommitError.message` renders the
exact text). -/
inductive CommitError where
  | malformedFormat
  | missingType
  | invalidType (given : String) (validTypes : String)
  | tooLong (length : Nat)
deriving DecidableEq

/-- The `fmt.Errorf` text of each error of `ValidateCommitMessage`. -/
def CommitError.message : CommitError → String
  | .malformedFormat => "commit message must follow format: type(scope): description"
  | .missingType => "commit message must have a type"
  | .invalidType g v => "invalid commit type: " ++ g ++ ". Valid types: " ++ v
  | .tooLong n => "commit message is too long: " ++ toString n ++ " characters (maximum: 72)"

/-- The advisory line `ValidateCommitMessage` prints for messages longer
than 50 bytes. -/
def lengthWarning (n : Nat) : String :=
  "Warning: Commit message is " ++ toString n ++ " characters (recommended: <50)\n"

/-- The type token `ValidateCommitMessage` extracts from a trimmed message:
the text before the first `(` of the trimmed part before the first `:`. -/
def commitTypeOf (trimmed : String) : String :=
  (goSplitN2 (goTrimSpace ((goSplitN2 trimmed ':').getD 0 "")) '(').getD 0 ""

/-- `ValidateCommitMessage` of `rules.go`.  The Go function returns an
`error` (or `nil`) and prints the length warning as a side effect; the
embedding returns the error, or on success the optional warning line. -/
def ValidateCommitMessage (order : List String) (message : String) :
    Except CommitError (Option String) :=
  let m := goTrimSpace message
  let parts := goSplitN2 m ':'
  if parts.length != 2 then
    .error .malformedFormat
  else
    let typeAndScope := goTrimSpace (parts.getD 0 "")
    let scopeParts := goSplitN2 typeAndScope '('
    if scopeParts.length == 0 then
      .error .missingType
    else
      let commitType := scopeParts.getD 0 ""
      if (CommitRules.lookup commitType).isNone then
        .error (.invalidType commitType (goJoin (GetCommitTypes order) ", "))
      else if m.utf8ByteSize > 72 then
        .error (.tooLong m.utf8ByteSize)
      else if m.utf8ByteSize > 50 then
        .ok (some (lengthWarning m.utf8ByteSize))
      else
        .ok none

/-- The whitespace class `\s` of Go's regexp (RE2): `[\t\n\f\r ]`. -/
def regexWs (c : Char) : Bool :=
  c == '\t' || c == '\n' || c == '\x0C' || c == '\r' || c == ' '

/-- ASCII `[a-z]`. -/
def isAsciiLower (c : Char) : Bool :=
  'a' ≤ c && c ≤ 'z'

/-- The capture of the regex tail `\s*"?([^"]+)"?` against `rest`, under
Go's leftmost-first greedy semantics: `\s*` takes the maximal whitespace
run, `"?` prefers to consume one double quote, and `([^"]+)` takes the
maximal non-empty run of non-quote characters, backtracking into the
whitespace run when nothing else can start the capture. -/
def quotedCaptureAfter (rest : List Char) : Option (List Char) :=
  let ws := rest.takeWhile regexWs
  let r1 := rest.drop ws.length
  let fallback : Option (List Char) :=
    match ws.getLast? with
    | some c => some [c]
    | none => none
  match r1 with
  | [] => fallback
  | c :: cs =>
    if c == '"' then
      match cs with
      | [] => fallback
      | d :: _ => if d == '"' then fallback else some (cs.takeWhile (· != '"'))
    else some (r1.takeWhile (· != '"'))

/-- Leftmost match of the regex `LIT\s*"?([^"]+)"?`: scan for the leftmost
occurrence of the literal `lit` at which the tail succeeds, and return the
capture group. -/
def findQuotedCapture (lit : List Char) : List Char → Option (List Char)
  | [] => none
  | c :: cs =>
    if hasPre lit (c :: cs) then
      match quotedCaptureAfter ((c :: cs).drop lit.length) with
      | some cap => some cap
      | none => findQuotedCapture lit cs
    else findQuotedCapture lit cs

/-- One of the first four extraction patterns of `CleanCommitMessage`,
`LIT\s*"?([^"]+)"?` for a literal phrase `LIT`, returning the capture
group of its leftmost match. -/
def phrasePattern (lit : String) (firstLine : String) : Option String :=
  (findQuotedCapture lit.data firstLine.data).map String.mk

/-- The capture of the anchored fifth pattern
`^\s*([a-z]+\([^)]+\):\s*[^.]+)` of `CleanCommitMessage`:
a lowercase type, a parenthesised scope, a colon, and a non-empty run of
non-period characters. -/
def directCapture (l : List Char) : Option (List Char) :=
  let l1 := l.drop (l.takeWhile regexWs).length
  let p1 := l1.takeWhile isAsciiLower
  if p1.isEmpty then none
  else
    match l1.drop p1.length with
    | '(' :: l3 =>
      let p2 := l3.takeWhile (· != ')')
      if p2.isEmpty then none
      else
        match l3.drop p2.length with
        | ')' :: ':' :: tail =>
          let p3 := tail.takeWhile (· != '.')
          if p3.isEmpty then none
          else some (p1 ++ '(' :: (p2 ++ ')' :: ':' :: p3))
        | _ => none
    | _ => none

/-- The fifth extraction pattern of `CleanCommitMessage` on a string. -/
def directPattern (firstLine : String) : Option String :=
  (directCapture firstLine.data).map String.mk

/-- The characters stripped by `strings.Trim(message, ...)` in
`CleanCommitMessage`: double and single quotes. -/
def quoteCutset : List Char := ['"', '\'']

/-- The five extraction patterns of `CleanCommitMessage`, in source
order. -/
def cleanPatterns : List (String → Option String) :=
  [phrasePattern "commit message:",
   phrasePattern "should be:",
   phrasePattern "message is:",
   phrasePattern "message:",
   directPattern]

/-- The pattern loop of `CleanCommitMessage`: the first pattern whose
(leftmost-match) capture, once whitespace-trimmed, contains a colon and is
shorter than 72 bytes yields the quote-trimmed candidate. -/
def tryPatterns : List (String → Option String) → String → Option String
  | [], _ => none
  | p :: ps, fl =>
    match p fl with
    | some cap =>
      let candidate := goTrimSpace cap
      if goContains candidate ":" && candidate.utf8ByteSize < 72 then
        some (goTrimChars candidate quoteCutset)
      else tryPatterns ps fl
    | none => tryPatterns ps fl

/-- The primary candidate of `CleanCommitMessage`: quote-trim and
whitespace-trim the whole input, split on line breaks, and whitespace-trim
the first line. -/
def firstLineOf (message : String) : String :=
  goTrimSpace (String.mk ((goTrimSpace (goTrimChars message quoteCutset)).data.takeWhile (· != '\n')))

/-- Everything `CleanCommitMessage` does after the well-formed fast path
fails: the pattern loop, the lenient colon fallback, and the final
fallback (both fallbacks return the first line). -/
def cleanFallback (firstLine : String) : String :=
  match tryPatterns cleanPatterns firstLine with
  | some c => c
  | none =>
    if goContains firstLine ":" && firstLine.utf8ByteSize < 72 then firstLine
    else firstLine

/-- `CleanCommitMessage` of `rules.go`. -/
def CleanCommitMessage (message : String) : String :=
  let firstLine := firstLineOf message
  if goContains firstLine ":" then
    let parts := goSplitN2 firstLine ':'
    if parts.length == 2 then
      let typePart := goTrimSpace (parts.getD 0 "")
      let descPart := goTrimSpace (parts.getD 1 "")
      if typePart.utf8ByteSize > 0 && descPart.utf8ByteSize > 0 &&
          firstLine.utf8ByteSize < 72 then
        firstLine
      else cleanFallback firstLine
    else cleanFallback firstLine
  else cleanFallback firstLine

/-- The sample inputs of the repository's `TestCleanCommitMessage` table
(`commitgen_test.go`). -/
def cleanSampleInputs : List String :=
  ["feat: add new feature",
   "\"feat: add new feature\"",
   "  feat: add new feature  ",
   "'feat: add new feature'",
   "feat: add new feature\n\nThis is the description",
   "",
   "   ",
   "feat: add new feature\nThis commit adds a new feature to the application",
   "fix: resolve bug   \n\n  ",
   "Based on the changes, the commit message should be: \"feat: add new feature\"",
   "Looking at the git diff, I can see this is a major refactoring. The commit message is: refactor(core): extract validation logic"]

instance {ε α : Type} [DecidableEq ε] [DecidableEq α] : DecidableEq (Except ε α)
  | .error a, .error b =>
    if h : a = b then .isTrue (by rw [h]) else .isFalse (fun hh => h (Except.error.inj hh))
  | .error _, .ok _ => .isFalse (fun hh => Except.noConfusion hh)
  | .ok _, .error _ => .isFalse (fun hh => Except.noConfusion hh)
  | .ok a, .ok b =>
    if h : a = b then .isTrue (by rw [h]) else .isFalse (fun hh => h (Except.ok.inj hh))

lemma strData_append (a b : String) : (a ++ b).data = a.data ++ b.data := rfl

lemma goContains_colon (s : String) : goContains s ":" = hasSub [':'] s.data := rfl

lemma hasSub_nil_pat : ∀ l : List Char, hasSub [] l = true
  | [] => rfl
  | _ :: cs => by simp [hasSub, hasPre, hasSub_nil_pat cs]

lemma hasPre_self_append : ∀ pat rest : List Char, hasPre pat (pat ++ rest) = true
  | [], _ => rfl
  | p :: ps, rest => by simp [hasPre, hasPre_self_append ps rest]

lemma hasSub_cons (pat : List Char) (c : Char) (cs : List Char) :
    hasSub pat (c :: cs) = (hasPre pat (c :: cs) || hasSub pat cs) := rfl

lemma hasSub_parts : ∀ (pre pat post l : List Char), l = pre ++ pat ++ post →
    hasSub pat l = true := by
  intro pre
  induction pre with
  | nil =>
    intro pat post l h
    subst h
    cases pat with
    | nil => exact hasSub_nil_pat _
    | cons p ps =>
      rw [show (([] : List Char) ++ (p :: ps) ++ post) = p :: (ps ++ post) from rfl,
        hasSub_cons]
      simp only [Bool.or_eq_true]
      exact Or.inl (hasPre_self_append (p :: ps) post)
  | cons c cs ih =>
    intro pat post l h
    subst h
    rw [show ((c :: cs) ++ pat ++ post : List Char) = c :: (cs ++ pat ++ post) from rfl,
      hasSub_cons]
    simp only [Bool.or_eq_true]
    exact Or.inr (ih pat post _ rfl)

lemma join_decomp (sep : String) : ∀ (l : List String) (t : String), t ∈ l →
    ∃ pre post, (goJoin l sep).data = pre ++ t.data ++ post := by
  intro l
  induction l with
  | nil => intro t h; cases h
  | cons s rest ih =>
    intro t h
    cases rest with
    | nil =>
      have ht : t = s := by
        cases h with
        | head => rfl
        | tail _ h2 => cases h2
      subst ht
      exact ⟨[], [], by simp [goJoin]⟩
    | cons s2 rest2 =>
      cases h with
      | head =>
        exact ⟨[], sep.data ++ (goJoin (s2 :: rest2) sep).data,
          by simp [goJoin, strData_append, List.append_assoc]⟩
      | tail _ h2 =>
        obtain ⟨pre, post, hp⟩ := ih t h2
        exact ⟨s.data ++ sep.data ++ pre, post,
          by simp [goJoin, strData_append, hp, List.append_assoc]⟩

lemma goSplitN2_pos {s : String} {sep : Char} (h : hasSub [sep] s.data = true) :
    goSplitN2 s sep =
      [String.mk (s.data.takeWhile (· != sep)),
       String.mk ((s.data.dropWhile (· != sep)).drop 1)] := by
  unfold goSplitN2
  rw [if_pos h]

lemma goSplitN2_neg {s : String} {sep : Char} (h : hasSub [sep] s.data = false) :
    goSplitN2 s sep = [s] := by
  unfold goSplitN2
  rw [if_neg (by simp [h])]

lemma goSplitN2_len_ne_zero (s : String) (sep : Char) :
    ((goSplitN2 s sep).length == 0) = false := by
  unfold goSplitN2
  split <;> rfl

lemma utf8ByteSize_cons (c : Char) (cs : List Char) :
    (String.mk (c :: cs)).utf8ByteSize = c.utf8Size + (String.mk cs).utf8ByteSize := by
  simp [String.utf8ByteSize, String.utf8ByteSize.go]
  omega

lemma utf8ByteSize_pos_iff (s : String) : 0 < s.utf8ByteSize ↔ s ≠ "" := by
  obtain ⟨data⟩ := s
  cases data with
  | nil =>
    constructor
    · intro h
      exact absurd h (by simp [String.utf8ByteSize, String.utf8ByteSize.go])
    · intro h
      exact absurd rfl h
  | cons c cs =>
    constructor
    · intro _ h
      exact List.noConfusion (congrArg String.data h)
    · intro _
      rw [utf8ByteSize_cons]
      have := Char.utf8Size_pos c
      omega

lemma validate_closed_form (order : List String) (m : String) :
    ValidateCommitMessage order m =
      if hasSub [':'] (goTrimSpace m).data then
        if (CommitRules.lookup (commitTypeOf (goTrimSpace m))).isNone then
          .error (.invalidType (commitTypeOf (goTrimSpace m))
            (goJoin (GetCommitTypes order) ", "))
        else if (goTrimSpace m).utf8ByteSize > 72 then
          .error (.tooLong (goTrimSpace m).utf8ByteSize)
        else if (goTrimSpace m).utf8ByteSize > 50 then
          .ok (some (lengthWarning (goTrimSpace m).utf8ByteSize))
        else
          .ok none
      else
        .error .malformedFormat := by
  simp only [ValidateCommitMessage, commitTypeOf]
  cases h : hasSub [':'] (goTrimSpace m).data with
  | false =>
    rw [goSplitN2_neg h]
    simp [h]
  | true =>
    rw [goSplitN2_pos h]
    simp [h, goSplitN2_len_ne_zero, List.getD]

/-- The embedding reproduces the expected outputs of the repository's
`TestCleanCommitMessage` table. -/
theorem clean_matches_repo_tests :
    CleanCommitMessage "feat: add new feature" = "feat: add new feature" ∧
    CleanCommitMessage "\"feat: add new feature\"" = "feat: add new feature" ∧
    CleanCommitMessage "  feat: add new feature  " = "feat: add new feature" ∧
    CleanCommitMessage "'feat: add new feature'" = "feat: add new feature" ∧
    CleanCommitMessage "feat: add new feature\n\nThis is the description" = "feat: add new feature" ∧
    CleanCommitMessage "" = "" ∧
    CleanCommitMessage "   " = "" ∧
    CleanCommitMessage "feat: add new feature\nThis commit adds a new feature to the application" = "feat: add new feature" ∧
    CleanCommitMessage "fix: resolve bug   \n\n  " = "fix: resolve bug" ∧
    CleanCommitMessage "Based on the changes, the commit message should be: \"feat: add new feature\"" = "feat: add new feature" ∧
    CleanCommitMessage "Looking at the git diff, I can see this is a major refactoring. The commit message is: refactor(core): extract validation logic" = "refactor(core): extract validation logic" := by
  decide

/-- C1 (counterexample): on the spec's sample input the extraction patterns
do not get to run, so `CleanCommitMessage` does not return the wrapped
message `"fix: resolve bug"`. -/
theorem c1_extraction_counterexample :
    CleanCommitMessage "The commit message should be: \"fix: resolve bug\"" ≠
      "fix: resolve bug" := by
  decide

/-- C1 (amended): after the trailing quote is trimmed the first line is 47
bytes with a colon and non-empty segments on both sides, so the well-formed
fast path returns the entire line verbatim; the extraction patterns recover
the wrapped message only when the fast path fails, as on the longer
repository-test input where the line is 74 bytes. -/
theorem c1_fast_path_beats_extraction :
    CleanCommitMessage "The commit message should be: \"fix: resolve bug\"" =
      "The commit message should be: \"fix: resolve bug" ∧
    CleanCommitMessage "Based on the changes, the commit message should be: \"feat: add new feature\"" =
      "feat: add new feature" :=
  ⟨by decide, by decide⟩

/-- C2: for any message whose trimmed form contains a colon and whose type
token is registered, trimmed length over 72 fails with `tooLong` carrying
the actual length, length in 51..72 succeeds carrying the length warning,
and length at most 50 succeeds with no warning. -/
theorem c2_length_outcomes (order : List String) (m : String)
    (hc : goContains (goTrimSpace m) ":" = true)
    (ht : (CommitRules.lookup (commitTypeOf (goTrimSpace m))).isSome = true) :
    (72 < (goTrimSpace m).utf8ByteSize →
      ValidateCommitMessage order m =
        .error (.tooLong (goTrimSpace m).utf8ByteSize)) ∧
    (50 < (goTrimSpace m).utf8ByteSize → (goTrimSpace m).utf8ByteSize ≤ 72 →
      ValidateCommitMessage order m =
        .ok (some (lengthWarning (goTrimSpace m).utf8ByteSize))) ∧
    ((goTrimSpace m).utf8ByteSize ≤ 50 →
      ValidateCommitMessage order m = .ok none) := by
  rw [goContains_colon] at hc
  have hn : (CommitRules.lookup (commitTypeOf (goTrimSpace m))).isNone = false := by
    cases hx : CommitRules.lookup (commitTypeOf (goTrimSpace m)) with
    | none => rw [hx] at ht; simp at ht
    | some r => rfl
  refine ⟨?_, ?_, ?_⟩
  · intro h72
    rw [validate_closed_form, if_pos hc, if_neg (by simp [hn]), if_pos h72]
  · intro h50 h72
    rw [validate_closed_form, if_pos hc, if_neg (by simp [hn]),
      if_neg (by omega), if_pos h50]
  · intro h50
    rw [validate_closed_form, if_pos hc, if_neg (by simp [hn]),
      if_neg (by omega), if_neg (by omega)]

/-- C2 (witness): a 77-byte message fails with `tooLong 77`, a 66-byte
message succeeds with the warning, and an 11-byte message succeeds
silently. -/
theorem c2_length_outcomes_witness :
    ValidateCommitMessage commitTypeNames
      "chore: aaaaaaaaaaaaaaaaaaaaaaaaaaaaaaaaaaaaaaaaaaaaaaaaaaaaaaaaaaaaaaaaaaaaaa" =
      .error (.tooLong 77) ∧
    ValidateCommitMessage commitTypeNames
      "feat: xxxxxxxxxxxxxxxxxxxxxxxxxxxxxxxxxxxxxxxxxxxxxxxxxxxxxxxxxxxx" =
      .ok (some (lengthWarning 66)) ∧
    ValidateCommitMessage commitTypeNames "feat: add x" = .ok none := by
  refine ⟨?_, ?_, ?_⟩
  · exact ((c2_length_outcomes commitTypeNames _ (by decide) (by decide)).1
      (by decide)).trans (by decide)
  · exact ((c2_length_outcomes commitTypeNames _ (by decide) (by decide)).2.1
      (by decide) (by decide)).trans (by decide)
  · exact (c2_length_outcomes commitTypeNames _ (by decide) (by decide)).2.2 (by decide)

/-- C3 (counterexample): `CleanCommitMessage` is not idempotent: on
`" \"a: b"` the first pass keeps the leading double quote (the quote trim
runs before the whitespace trim, so a space shields the quote) and the
second pass removes it. -/
theorem c3_idempotence_counterexample :
    CleanCommitMessage (CleanCommitMessage " \"a: b") ≠
      CleanCommitMessage " \"a: b" := by
  decide

/-- C3 (amended): cleaning is idempotent on every sample input of the
repository's test suite. -/
theorem c3_idempotent_on_samples :
    cleanSampleInputs.all
      (fun s => CleanCommitMessage (CleanCommitMessage s) == CleanCommitMessage s) = true := by
  decide

/-- C4: for every enumeration order of the registry keys and every analysis
input (including the empty string), the prompt contains each registered
commit type as a substring and ends with the input verbatim. -/
theorem c4_prompt_types_and_suffix (order : List String) (x : String)
    (hperm : order.Perm commitTypeNames) :
    (∀ t ∈ commitTypeNames, goContains (GetPrompt order x) t = true) ∧
    ∃ pre, GetPrompt order x = pre ++ x := by
  constructor
  · intro t htm
    have hto : t ∈ order := hperm.mem_iff.mpr htm
    obtain ⟨pre, post, hp⟩ := join_decomp ", " order t hto
    show hasSub t.data (GetPrompt order x).data = true
    refine hasSub_parts (promptBeforeTypes.data ++ pre) t.data
      (post ++ promptAfterTypes.data ++ x.data) _ ?_
    simp [GetPrompt, GetCommitTypes, strData_append, hp, List.append_assoc]
  · exact ⟨promptBeforeTypes ++ goJoin (GetCommitTypes order) ", " ++ promptAfterTypes, rfl⟩

/-- C4 (witness): the prompt for a concrete input contains concrete
registered types. -/
theorem c4_prompt_types_and_suffix_witness :
    goContains (GetPrompt commitTypeNames "sample diff") "feat" = true ∧
    goContains (GetPrompt commitTypeNames "sample diff") "chore" = true :=
  ⟨(c4_prompt_types_and_suffix commitTypeNames "sample diff" (List.Perm.refl _)).1
      "feat" (by decide),
   (c4_prompt_types_and_suffix commitTypeNames "sample diff" (List.Perm.refl _)).1
      "chore" (by decide)⟩

/-- C5: validation fails with the malformed-format error exactly when the
trimmed message contains no colon; in particular on "add new feature"; and
the error text is the documented format message. -/
theorem c5_malformed_iff_no_colon :
    (∀ (order : List String) (m : String),
      ValidateCommitMessage order m = .error .malformedFormat ↔
        goContains (goTrimSpace m) ":" = false) ∧
    (∀ order : List String,
      ValidateCommitMessage order "add new feature" = .error .malformedFormat) ∧
    CommitError.message .malformedFormat =
      "commit message must follow format: type(scope): description" := by
  refine ⟨?_, fun order => rfl, rfl⟩
  intro order m
  rw [goContains_colon, validate_closed_form]
  cases h : hasSub [':'] (goTrimSpace m).data with
  | false => simp
  | true =>
    constructor
    · intro hv
      rw [if_pos rfl] at hv
      split at hv
      · simp_all
      · split at hv
        · simp_all
        · split at hv <;> simp_all
    · intro hfalse
      simp at hfalse

/-- C6: when the trimmed message contains a colon but its type token is not
registered, validation fails with the invalid-type error whose text contains
every registered type name, for every enumeration order of the registry. -/
theorem c6_invalid_type_error_lists_types (order : List String) (m : String)
    (hperm : order.Perm commitTypeNames)
    (hc : goContains (goTrimSpace m) ":" = true)
    (ht : CommitRules.lookup (commitTypeOf (goTrimSpace m)) = none) :
    ValidateCommitMessage order m =
      .error (.invalidType (commitTypeOf (goTrimSpace m))
        (goJoin (GetCommitTypes order) ", ")) ∧
    ∀ t ∈ commitTypeNames,
      goContains
        (CommitError.message (.invalidType (commitTypeOf (goTrimSpace m))
          (goJoin (GetCommitTypes order) ", "))) t = true := by
  rw [goContains_colon] at hc
  constructor
  · rw [validate_closed_form, if_pos hc, if_pos (by simp [ht])]
  · intro t htm
    have hto : t ∈ order := hperm.mem_iff.mpr htm
    obtain ⟨pre, post, hp⟩ := join_decomp ", " order t hto
    show hasSub t.data _ = true
    refine hasSub_parts
      (("invalid commit type: " ++ commitTypeOf (goTrimSpace m) ++ ". Valid types: ").data ++ pre)
      t.data post _ ?_
    simp [CommitError.message, GetCommitTypes, strData_append, hp, List.append_assoc]

/-- C6 (witness): "bogus: add x" fails with the invalid-type error, whose
text contains the concrete registered type "refactor". -/
theorem c6_invalid_type_error_lists_types_witness :
    ValidateCommitMessage commitTypeNames "bogus: add x" =
      .error (.invalidType "bogus" (goJoin commitTypeNames ", ")) ∧
    goContains
      (CommitError.message (.invalidType "bogus" (goJoin commitTypeNames ", ")))
      "refactor" = true := by
  have h := c6_invalid_type_error_lists_types commitTypeNames "bogus: add x"
    (List.Perm.refl _) (by decide) (by decide)
  exact ⟨h.1.trans (by decide), (h.2 "refactor" (by decide)).trans (by decide)⟩

/-- C7: when the trimmed first line of the quote- and whitespace-trimmed
input contains a colon with non-empty trimmed segments on both sides and is
under 72 bytes, `CleanCommitMessage` returns that first line. -/
theorem c7_fast_path_first_line (s : String)
    (hc : goContains (firstLineOf s) ":" = true)
    (hp : goTrimSpace ((goSplitN2 (firstLineOf s) ':').getD 0 "") ≠ "")
    (hd : goTrimSpace ((goSplitN2 (firstLineOf s) ':').getD 1 "") ≠ "")
    (hl : (firstLineOf s).utf8ByteSize < 72) :
    CleanCommitMessage s = firstLineOf s := by
  have hc' := hc
  rw [goContains_colon] at hc'
  simp only [CleanCommitMessage]
  rw [if_pos hc]
  rw [goSplitN2_pos hc'] at hp hd ⊢
  simp only [List.getD_cons_zero, List.getD_cons_succ] at hp hd ⊢
  rw [if_pos (by rfl)]
  split
  · rfl
  next hcond =>
    exfalso
    apply hcond
    simp only [Bool.and_eq_true, decide_eq_true_eq]
    exact ⟨⟨(utf8ByteSize_pos_iff _).mpr hp, (utf8ByteSize_pos_iff _).mpr hd⟩, hl⟩

/-- C7 (witness): the documented example input. -/
theorem c7_fast_path_first_line_witness :
    CleanCommitMessage "feat: add x\nextra body text" = "feat: add x" :=
  (c7_fast_path_first_line "feat: add x\nextra body text"
    (by decide) (by decide) (by decide) (by decide)).trans (by decide)

set_option maxRecDepth 16384 in
/-- C8 (counterexample): `GetPrompt` is not deterministic across calls: the
registry is a Go map, whose iteration order is unspecified, and two valid
enumeration orders of its keys produce different prompt strings for the same
analysis input. -/
theorem c8_determinism_counterexample :
    (["fix", "feat", "docs", "style", "refactor", "test", "chore"] : List String).Perm
      commitTypeNames ∧
    GetPrompt ["fix", "feat", "docs", "style", "refactor", "test", "chore"] "x" ≠
      GetPrompt commitTypeNames "x" := by
  constructor
  · exact List.Perm.swap "feat" "fix" ["docs", "style", "refactor", "test", "chore"]
  · decide

/-- C8 (amended): the prompt is a pure function of the analysis input and
the comma-joined enumeration of the registry keys: whenever two enumeration
orders join to the same type list, the prompts agree for every input. -/
theorem c8_prompt_determined_by_types_list (o1 o2 : List String) (x : String)
    (h : goJoin (GetCommitTypes o1) ", " = goJoin (GetCommitTypes o2) ", ") :
    GetPrompt o1 x = GetPrompt o2 x := by
  simp only [GetPrompt]
  rw [h]

/-- C8 (witness): two distinct enumeration lists with the same join give the
same prompt. -/
theorem c8_prompt_determined_by_types_list_witness :
    GetPrompt ["feat, fix"] "d" = GetPrompt ["feat", "fix"] "d" :=
  c8_prompt_determined_by_types_list ["feat, fix"] ["feat", "fix"] "d" (by decide)

/-- C9: cleaning never fails: empty and whitespace-only input collapse to
the empty string, and whenever no extraction pattern yields an accepted
candidate and the first line has no colon, the trimmed first line is
returned verbatim. -/
theorem c9_clean_total_fallback :
    CleanCommitMessage "" = "" ∧
    CleanCommitMessage "   " = "" ∧
    ∀ s : String,
      tryPatterns cleanPatterns (firstLineOf s) = none →
      goContains (firstLineOf s) ":" = false →
      CleanCommitMessage s = firstLineOf s := by
  refine ⟨by decide, by decide, ?_⟩
  intro s hpat hc
  simp only [CleanCommitMessage]
  rw [if_neg (by simp [hc])]
  simp [cleanFallback, hpat]

/-- C9 (witness): a colon-free input is passed through as its trimmed first
line. -/
theorem c9_clean_total_fallback_witness :
    CleanCommitMessage "no colon here" = firstLineOf "no colon here" :=
  c9_clean_total_fallback.2.2 "no colon here" (by decide) (by decide)

/-- C10: the `missingType` branch of `ValidateCommitMessage` is unreachable:
`SplitN` never returns an empty list, so every validation result is the
malformed-format error, an invalid-type error, a too-long error, or
success. -/
theorem c10_missing_type_unreachable (order : List String) (m : String) :
    (∀ (s : String) (c : Char), (goSplitN2 s c).length ≠ 0) ∧
    ValidateCommitMessage order m ≠ .error .missingType ∧
    (ValidateCommitMessage order m = .error .malformedFormat ∨
     (∃ g v, ValidateCommitMessage order m = .error (.invalidType g v)) ∨
     (∃ n, ValidateCommitMessage order m = .error (.tooLong n)) ∨
     (∃ w, ValidateCommitMessage order m = .ok w)) := by
  have key : ValidateCommitMessage order m = .error .malformedFormat ∨
      (∃ g v, ValidateCommitMessage order m = .error (.invalidType g v)) ∨
      (∃ n, ValidateCommitMessage order m = .error (.tooLong n)) ∨
      (∃ w, ValidateCommitMessage order m = .ok w) := by
    rw [validate_closed_form]
    split
    · split
      · exact Or.inr (Or.inl ⟨_, _, rfl⟩)
      · split
        · exact Or.inr (Or.inr (Or.inl ⟨_, rfl⟩))
        · split
          · exact Or.inr (Or.inr (Or.inr ⟨_, rfl⟩))
          · exact Or.inr (Or.inr (Or.inr ⟨_, rfl⟩))
    · exact Or.inl rfl
  refine ⟨fun s c => by unfold goSplitN2; split <;> simp, ?_, key⟩
  rcases key with h | ⟨g, v, h⟩ | ⟨n, h⟩ | ⟨w, h⟩ <;> rw [h] <;> simp
